import Mathlib

set_option maxRecDepth 100000

/-!
Shallow embedding of the edge-net DHCP layer (src/asynch/dhcp.rs) together
with the pieces of the underlying dhcp wire codec that the asynchronous layer
calls.  Bytes are lists of naturals (each < 256 on real inputs), machine
integers are naturals, time is measured in whole seconds, and the
asynchronous socket/timer environment is an explicit list of resolution
events consumed in order.
-/

namespace EdgeNet

/-- An IPv4 socket address: a 32-bit address (as a natural) and a port. -/
structure SockV4 where
  ip : Nat
  port : Nat
deriving DecidableEq

instance instDecEqExcept {ε α : Type} [DecidableEq ε] [DecidableEq α] :
    DecidableEq (Except ε α) := fun x y =>
  match x, y with
  | .ok a, .ok b =>
    if h : a = b then isTrue (congrArg _ h)
    else isFalse (fun he => h (Except.ok.inj he))
  | .error a, .error b =>
    if h : a = b then isTrue (congrArg _ h)
    else isFalse (fun he => h (Except.error.inj he))
  | .ok _, .error _ => isFalse (fun he => Except.noConfusion he)
  | .error _, .ok _ => isFalse (fun he => Except.noConfusion he)

/-- 255.255.255.255, `Ipv4Addr::BROADCAST`. -/
def broadcastIp : Nat := 4294967295

/-- 0.0.0.0, `Ipv4Addr::UNSPECIFIED`. -/
def unspecifiedIp : Nat := 0

/-- Byte access with zero default, mirroring indexing into a decoded buffer. -/
def getByte (l : List Nat) (i : Nat) : Nat := l.getD i 0

/-- Big-endian 16-bit read at offset `i`. -/
def be16 (l : List Nat) (i : Nat) : Nat := getByte l i * 256 + getByte l (i + 1)

/-- Big-endian 32-bit read at offset `i`. -/
def be32 (l : List Nat) (i : Nat) : Nat := be16 l i * 65536 + be16 l (i + 2)

/-- Group a byte list into big-endian 16-bit words, zero-padding a trailing odd byte. -/
def words16 : List Nat → List Nat
  | a :: b :: rest => (a * 256 + b) :: words16 rest
  | [a] => [a * 256]
  | [] => []

/-- End-around-carry folding of a sum into 16 bits, with enough fuel to
reach a fixed point (each step strictly shrinks any value of 65536 or
more, so `n` steps always suffice for input `n`). -/
def fold16aux : Nat → Nat → Nat
  | 0, n => n
  | Nat.succ k, n => if n < 65536 then n else fold16aux k (n % 65536 + n / 65536)

/-- End-around-carry folding of a sum into 16 bits (ones-complement addition). -/
def fold16 (n : Nat) : Nat := fold16aux n n

/-- The internet checksum of a byte list validates when the ones-complement
sum of its 16-bit words (checksum field included) folds to 0xFFFF. -/
def checksumOk (header : List Nat) : Bool :=
  fold16 ((words16 header).foldl (· + ·) 0) == 65535

/-- Errors of the raw IP+UDP codec (`dhcp::raw::Error`). -/
inductive RawErr where
  | invalidFormat
  | invalidChecksum
  | bufferOverflow
deriving DecidableEq

/-- Modelled from the spec: `dhcp::raw::ip_udp_decode` is not under `src/`.
Validates the IPv4 version and header checksum of a link-layer frame, returns
`none` when the frame is not IPv4/UDP or when the optional source/destination
filters do not match (a filter port of 0 matches any port), returns
`InvalidChecksum` for a bad header checksum and `InvalidFormat` for truncated
data, and otherwise yields the source address, destination address and UDP
payload.  The UDP checksum is not verified. -/
def ipUdpDecode (bytes : List Nat) (fsrc fdst : Option SockV4) :
    Except RawErr (Option (SockV4 × SockV4 × List Nat)) :=
  if bytes.length < 20 then .error .invalidFormat
  else if getByte bytes 0 / 16 ≠ 4 then .ok none
  else
    let ihl := getByte bytes 0 % 16
    let hlen := ihl * 4
    if hlen < 20 ∨ bytes.length < hlen + 8 then .error .invalidFormat
    else if ¬ checksumOk (bytes.take hlen) then .error .invalidChecksum
    else if getByte bytes 9 ≠ 17 then .ok none
    else
      let src : SockV4 := ⟨be32 bytes 12, be16 bytes hlen⟩
      let dst : SockV4 := ⟨be32 bytes 16, be16 bytes (hlen + 2)⟩
      let ulen := be16 bytes (hlen + 4)
      if ulen < 8 ∨ bytes.length < hlen + ulen then .error .invalidFormat
      else
        let payload := (bytes.drop (hlen + 8)).take (ulen - 8)
        let srcOk := match fsrc with
          | none => true
          | some f => f.ip == src.ip && (f.port == 0 || f.port == src.port)
        let dstOk := match fdst with
          | none => true
          | some f => f.ip == dst.ip && (f.port == 0 || f.port == dst.port)
        if srcOk && dstOk then .ok (some (src, dst, payload))
        else .ok none

/-- The raw adapter's `receive_into` (src/asynch/dhcp.rs lines 189-215): read
frames from the link-layer socket into a scratch buffer, skip frames for which
`ip_udp_decode` yields `none`, `InvalidFormat` or `InvalidChecksum`, propagate
any other raw error, and on the first match copy `buf[..len]` (the first
`len = payload.length` bytes of the scratch buffer, i.e. of the raw frame)
into the caller's buffer of capacity `cap`, failing with `BufferOverflow`
when the payload is longer than `cap`.  `none` means the frame list was
exhausted while still waiting. -/
def rawReceiveInto (fsrc fdst : Option SockV4) (cap : Nat) :
    List (List Nat) → Option (Except RawErr (List Nat × SockV4 × SockV4))
  | [] => none
  | frame :: rest =>
    match ipUdpDecode frame fsrc fdst with
    | .ok (some (lcl, rem, data)) =>
      let len := data.length
      if len ≤ cap then some (.ok (frame.take len, lcl, rem))
      else some (.error .bufferOverflow)
    | .ok none => rawReceiveInto fsrc fdst cap rest
    | .error .invalidFormat => rawReceiveInto fsrc fdst cap rest
    | .error .invalidChecksum => rawReceiveInto fsrc fdst cap rest
    | .error e => some (.error e)

/-- The UDP payload of a frame as `ip_udp_decode` extracts it, for stating
what `receive_into` ought to copy. -/
def framePayload (frame : List Nat) : List Nat :=
  let hlen := getByte frame 0 % 16 * 4
  (frame.drop (hlen + 8)).take (be16 frame (hlen + 4) - 8)

/-- A decoded DHCP option (the RFC 2132 subset enumerated in the data model). -/
inductive DhcpOpt where
  | subnetMask (ip : Nat)
  | router (ips : List Nat)
  | dns (ips : List Nat)
  | hostName (data : List Nat)
  | domainName (data : List Nat)
  | requestedIp (ip : Nat)
  | leaseTime (secs : Nat)
  | messageType (t : Nat)
  | serverId (ip : Nat)
  | paramReqList (codes : List Nat)
  | maxMsgSize (n : Nat)
  | renewalT1 (n : Nat)
  | rebindingT2 (n : Nat)
  | clientId (data : List Nat)
  | other (code : Nat) (data : List Nat)
deriving DecidableEq

/-- Group a byte list into big-endian 32-bit values, dropping a ragged tail. -/
def be32s : List Nat → List Nat
  | a :: b :: c :: d :: rest => (((a * 256 + b) * 256 + c) * 256 + d) :: be32s rest
  | _ => []

/-- Interpret one TLV option body according to its code. -/
def parseOpt (code : Nat) (data : List Nat) : DhcpOpt :=
  if code = 1 then .subnetMask (be32 data 0)
  else if code = 3 then .router (be32s data)
  else if code = 6 then .dns (be32s data)
  else if code = 12 then .hostName data
  else if code = 15 then .domainName data
  else if code = 50 then .requestedIp (be32 data 0)
  else if code = 51 then .leaseTime (be32 data 0)
  else if code = 53 then .messageType (getByte data 0)
  else if code = 54 then .serverId (be32 data 0)
  else if code = 55 then .paramReqList data
  else if code = 57 then .maxMsgSize (be16 data 0)
  else if code = 58 then .renewalT1 (be32 data 0)
  else if code = 59 then .rebindingT2 (be32 data 0)
  else if code = 61 then .clientId data
  else .other code data

/-- Formatting errors of the BOOTP codec (`dhcp::Error`). -/
inductive FmtErr where
  | invalidFormat
deriving DecidableEq

/-- Walk the TLV stream after the magic cookie: Pad (0) is skipped, End (255)
or end-of-buffer terminates, a truncated TLV is `InvalidFormat`.  The fuel
argument only bounds the recursion; every step consumes at least one byte,
so fuel equal to the list length (as supplied by `parseOpts`) never runs
out before the list does. -/
def parseOptsGo : Nat → List Nat → Except FmtErr (List DhcpOpt)
  | _, [] => .ok []
  | 0, _ :: _ => .error .invalidFormat
  | Nat.succ k, 0 :: rest => parseOptsGo k rest
  | _, 255 :: _ => .ok []
  | _, _ :: [] => .error .invalidFormat
  | Nat.succ k, code :: len :: rest =>
    if len ≤ rest.length then
      match parseOptsGo k (rest.drop len) with
      | .error e => .error e
      | .ok tl => .ok (parseOpt code (rest.take len) :: tl)
    else .error .invalidFormat

/-- The TLV walk at its natural fuel. -/
def parseOpts (l : List Nat) : Except FmtErr (List DhcpOpt) :=
  parseOptsGo l.length l

/-- A decoded BOOTP frame with its DHCP options (`dhcp::Packet`).  The
broadcast flag is bit 15 of the 16-bit flags field. -/
structure Packet where
  op : Nat
  htype : Nat
  hlen : Nat
  hops : Nat
  xid : Nat
  secs : Nat
  broadcast : Bool
  ciaddr : Nat
  yiaddr : Nat
  siaddr : Nat
  giaddr : Nat
  chaddr : List Nat
  options : List DhcpOpt
deriving DecidableEq

/-- Modelled from the spec: `dhcp::Packet::decode` is not under `src/`.
Reads the fixed 236-byte BOOTP header, validates the magic cookie
0x63825363 and `hlen ≤ 16`, then walks the option TLVs; all failures are
`InvalidFormat`. -/
def Packet.decode (bytes : List Nat) : Except FmtErr Packet :=
  if bytes.length < 240 then .error .invalidFormat
  else if ¬ (getByte bytes 236 = 99 ∧ getByte bytes 237 = 130 ∧
             getByte bytes 238 = 83 ∧ getByte bytes 239 = 99) then
    .error .invalidFormat
  else if 16 < getByte bytes 2 then .error .invalidFormat
  else
    match parseOpts (bytes.drop 240) with
    | .error e => .error e
    | .ok opts =>
      .ok { op := getByte bytes 0
            htype := getByte bytes 1
            hlen := getByte bytes 2
            hops := getByte bytes 3
            xid := be32 bytes 4
            secs := be16 bytes 8
            broadcast := 128 ≤ getByte bytes 10
            ciaddr := be32 bytes 12
            yiaddr := be32 bytes 16
            siaddr := be32 bytes 20
            giaddr := be32 bytes 24
            chaddr := (bytes.drop 28).take 16
            options := opts }

/-- The lease settings extracted from a reply (`dhcp::Settings`). -/
structure Settings where
  ip : Nat
  server_ip : Option Nat
  lease_time_secs : Option Nat
  gateway : Option Nat
  subnet : Option Nat
  dns1 : Option Nat
  dns2 : Option Nat
deriving DecidableEq

/-- First MessageType (53) option value, if any. -/
def firstMsgType : List DhcpOpt → Option Nat
  | [] => none
  | .messageType t :: _ => some t
  | _ :: rest => firstMsgType rest

/-- First ServerIdentifier (54) option value, if any. -/
def firstServerId : List DhcpOpt → Option Nat
  | [] => none
  | .serverId ip :: _ => some ip
  | _ :: rest => firstServerId rest

/-- First LeaseTime (51) option value, if any. -/
def firstLeaseTime : List DhcpOpt → Option Nat
  | [] => none
  | .leaseTime s :: _ => some s
  | _ :: rest => firstLeaseTime rest

/-- First SubnetMask (1) option value, if any. -/
def firstSubnet : List DhcpOpt → Option Nat
  | [] => none
  | .subnetMask ip :: _ => some ip
  | _ :: rest => firstSubnet rest

/-- First Router (3) option list, if any. -/
def firstRouter : List DhcpOpt → Option (List Nat)
  | [] => none
  | .router ips :: _ => some ips
  | _ :: rest => firstRouter rest

/-- First DNS (6) option list, if any. -/
def firstDns : List DhcpOpt → Option (List Nat)
  | [] => none
  | .dns ips :: _ => some ips
  | _ :: rest => firstDns rest

/-- Modelled from the spec: `Settings::from(&Packet)` is not under `src/`.
`ip = yiaddr`, `server_ip` from ServerIdentifier, `lease_time_secs` from
LeaseTime, gateway/subnet/dns from the corresponding options; the first
occurrence of a duplicated option wins. -/
def settingsOf (p : Packet) : Settings :=
  { ip := p.yiaddr
    server_ip := firstServerId p.options
    lease_time_secs := firstLeaseTime p.options
    gateway := match firstRouter p.options with
      | some (ip :: _) => some ip
      | _ => none
    subnet := firstSubnet p.options
    dns1 := match firstDns p.options with
      | some (a :: _) => some a
      | _ => none
    dns2 := match firstDns p.options with
      | some (_ :: b :: _) => some b
      | _ => none }

/-- Modelled from the spec: `dhcp::client::Client::is_offer` is not under
`src/`.  A reply is an OFFER for transaction `xid` when it is a BootReply
with matching `xid`, MessageType Offer (2) and a `chaddr` whose 6-byte
prefix equals the client's mac. -/
def isOffer (mac : List Nat) (p : Packet) (xid : Nat) : Bool :=
  p.op == 2 && p.xid == xid && firstMsgType p.options == some 2 &&
    p.chaddr.take 6 == mac

/-- Modelled from the spec: `dhcp::client::Client::is_ack`, analogous to
`is_offer` with MessageType Ack (5). -/
def isAck (mac : List Nat) (p : Packet) (xid : Nat) : Bool :=
  p.op == 2 && p.xid == xid && firstMsgType p.options == some 5 &&
    p.chaddr.take 6 == mac

/-- Modelled from the spec: `dhcp::client::Client::is_nak`, analogous to
`is_offer` with MessageType Nak (6). -/
def isNak (mac : List Nat) (p : Packet) (xid : Nat) : Bool :=
  p.op == 2 && p.xid == xid && firstMsgType p.options == some 6 &&
    p.chaddr.take 6 == mac

/-- The client configuration (`client::Configuration`). -/
structure ClientCfg where
  mac : List Nat
  socket : SockV4
  timeout : Nat
deriving DecidableEq

/-- `Configuration::new(mac)`: socket 0.0.0.0:68, timeout 10 s. -/
def defaultCfg (mac : List Nat) : ClientCfg :=
  ⟨mac, ⟨unspecifiedIp, 68⟩, 10⟩

/-- The abstract content of a packet the client encodes and sends: which
protocol-core constructor produced it and with which arguments. -/
inductive SentMsg where
  | discover (xid : Nat)
  | request (xid : Nat) (ip : Nat)
  | release (ip : Nat)
deriving DecidableEq

/-- An observable socket operation performed by the client or server. -/
inductive Op where
  | bindMultiple (addr : SockV4)
  | connectFrom (lcl : SockV4) (remote : SockV4)
  | send (lcl : SockV4) (remote : SockV4) (msg : SentMsg)
  | sendPkt (lcl : SockV4) (remote : SockV4) (p : Packet)
deriving DecidableEq

/-- Resolution of one `select(socket.receive_into(..), timer)` in a client
receive loop: the timer branch won, the receive failed with an I/O error, or
a datagram of `bytes` arrived after `d` seconds. -/
inductive SelEvent where
  | timer
  | recvErr
  | recv (d : Nat) (bytes : List Nat)
deriving DecidableEq

/-- The client's environment: pending select resolutions, the RNG's stream
of transaction ids, and the current monotonic time in seconds. -/
structure World where
  events : List SelEvent
  xids : List Nat
  now : Nat
deriving DecidableEq

/-- The next transaction id drawn from the RNG stream (0 once the modelled
stream is exhausted). -/
def headOr : List Nat → Nat
  | [] => 0
  | x :: _ => x

/-- Outcome of the OFFER wait loop inside `Client::discover`. -/
inductive DWait where
  | offer (s : Settings)
  | ferr
  | ioerr
  | timedOut
  | stuck
deriving DecidableEq

/-- The inner wait loop of `Client::discover` (src/asynch/dhcp.rs lines
405-426): while less than `cfg.timeout` seconds have elapsed since the
Discover was sent, select between a receive and a 3-second timer; a decoded
reply satisfying `is_offer` returns its `Settings`, a decode failure is
returned through `?` as a Format error, any other reply is skipped. -/
def discoverWait (cfg : ClientCfg) (xid : Nat) :
    Nat → Nat → List SelEvent → DWait × Nat × List SelEvent
  | elapsed, now, events =>
    if elapsed < cfg.timeout then
      match events with
      | [] => (.stuck, now, [])
      | .timer :: rest => discoverWait cfg xid (elapsed + 3) (now + 3) rest
      | .recvErr :: rest => (.ioerr, now, rest)
      | .recv d bytes :: rest =>
        match Packet.decode bytes with
        | .error _ => (.ferr, now + d, rest)
        | .ok reply =>
          if isOffer cfg.mac reply xid then (.offer (settingsOf reply), now + d, rest)
          else discoverWait cfg xid (elapsed + d) (now + d) rest
    else (.timedOut, now, events)

/-- Result of `Client::discover`. -/
inductive DiscRes where
  | ok (s : Settings)
  | fmtErr
  | ioErr
  | stuck
deriving DecidableEq

/-- The socket operations of one discovery round: bind 0.0.0.0:68 and send
the Discover from 0.0.0.0:68 to 255.255.255.255:67. -/
def discoverOps (xid : Nat) : List Op :=
  [.bindMultiple ⟨unspecifiedIp, 68⟩,
   .send ⟨unspecifiedIp, 68⟩ ⟨broadcastIp, 67⟩ (.discover xid)]

/-- `Client::discover` (src/asynch/dhcp.rs lines 374-434): each round binds
a fresh socket to 0.0.0.0:68, draws a fresh `xid`, broadcasts a Discover to
255.255.255.255:67, and runs the wait loop; on timeout it sleeps 3 seconds
and retries.  `fuel` bounds the number of rounds modelled. -/
def discoverR (cfg : ClientCfg) : Nat → World → DiscRes × World × List Op
  | 0, w => (.stuck, w, [])
  | Nat.succ f, w =>
    let xid := headOr w.xids
    let ops0 := discoverOps xid
    match discoverWait cfg xid 0 w.now w.events with
    | (.offer s, n, evs) => (.ok s, ⟨evs, w.xids.tail, n⟩, ops0)
    | (.ferr, n, evs) => (.fmtErr, ⟨evs, w.xids.tail, n⟩, ops0)
    | (.ioerr, n, evs) => (.ioErr, ⟨evs, w.xids.tail, n⟩, ops0)
    | (.stuck, n, evs) => (.stuck, ⟨evs, w.xids.tail, n⟩, ops0)
    | (.timedOut, n, evs) =>
      let (r, w2, ops1) := discoverR cfg f ⟨evs, w.xids.tail, n + 3⟩
      (r, w2, ops0 ++ ops1)

/-- Outcome of the ACK/NAK wait loop inside `Client::request`. -/
inductive RWait where
  | ack (s : Settings)
  | nak
  | ferr
  | ioerr
  | timedOut
  | stuck
deriving DecidableEq

/-- The inner wait loop of `Client::request` (src/asynch/dhcp.rs lines
469-492): while less than `cfg.timeout` seconds have elapsed since the
Request was sent, select between a receive and a 10-second timer; a reply
satisfying `is_ack` returns its `Settings`, a reply satisfying `is_nak`
returns NAK, a decode failure is returned through `?` as a Format error,
any other reply is skipped. -/
def requestWait (cfg : ClientCfg) (xid : Nat) :
    Nat → Nat → List SelEvent → RWait × Nat × List SelEvent
  | elapsed, now, events =>
    if elapsed < cfg.timeout then
      match events with
      | [] => (.stuck, now, [])
      | .timer :: rest => requestWait cfg xid (elapsed + 10) (now + 10) rest
      | .recvErr :: rest => (.ioerr, now, rest)
      | .recv d bytes :: rest =>
        match Packet.decode bytes with
        | .error _ => (.ferr, now + d, rest)
        | .ok reply =>
          if isAck cfg.mac reply xid then (.ack (settingsOf reply), now + d, rest)
          else if isNak cfg.mac reply xid then (.nak, now + d, rest)
          else requestWait cfg xid (elapsed + d) (now + d) rest
    else (.timedOut, now, events)

/-- Result of `Client::request`, one constructor per exit site of the code:
`ack`/`nak` from the two classified replies, `timeoutExhausted` for the
fall-through after all attempts, and the two propagated error kinds. -/
inductive ReqRes where
  | ack (s : Settings)
  | nak
  | timeoutExhausted
  | fmtErr
  | ioErr
  | stuck
deriving DecidableEq

/-- The socket operations of one request attempt: bind `<server_ip>:68` and
send the Request from 0.0.0.0:68 to `<server_ip>:67`. -/
def requestOps (sip : Nat) (xid : Nat) (ip : Nat) : List Op :=
  [.bindMultiple ⟨sip, 68⟩,
   .send ⟨unspecifiedIp, 68⟩ ⟨sip, 67⟩ (.request xid ip)]

/-- The attempt loop of `Client::request` (src/asynch/dhcp.rs lines 436-500):
each of the (at most `attempts`) rounds binds a fresh socket to
`<server_ip>:68`, draws a fresh `xid`, sends a Request for `ip` to
`<server_ip>:67`, and runs the wait loop; a timed-out attempt falls through
to the next round. -/
def requestGo (cfg : ClientCfg) (sip ip : Nat) :
    Nat → World → ReqRes × World × List Op
  | 0, w => (.timeoutExhausted, w, [])
  | Nat.succ a, w =>
    let xid := headOr w.xids
    let ops0 := requestOps sip xid ip
    match requestWait cfg xid 0 w.now w.events with
    | (.ack s, n, evs) => (.ack s, ⟨evs, w.xids.tail, n⟩, ops0)
    | (.nak, n, evs) => (.nak, ⟨evs, w.xids.tail, n⟩, ops0)
    | (.ferr, n, evs) => (.fmtErr, ⟨evs, w.xids.tail, n⟩, ops0)
    | (.ioerr, n, evs) => (.ioErr, ⟨evs, w.xids.tail, n⟩, ops0)
    | (.stuck, n, evs) => (.stuck, ⟨evs, w.xids.tail, n⟩, ops0)
    | (.timedOut, n, evs) =>
      let (r, w2, ops1) := requestGo cfg sip ip a ⟨evs, w.xids.tail, n⟩
      (r, w2, ops0 ++ ops1)

/-- `Client::request`: the attempt loop with the code's `for _ in 0..3`. -/
def requestR (cfg : ClientCfg) (sip ip : Nat) (w : World) :
    ReqRes × World × List Op :=
  requestGo cfg sip ip 3 w

/-- The error type surfaced by the client (`Error<E>`): an I/O error from
the socket or a Format error from the codec. -/
inductive ClientErr where
  | ioError
  | formatError
deriving DecidableEq

/-- How each `Client::request` exit maps onto the Rust return value
`Result<Option<Settings>, Error<E>>`; `stuck` means the modelled
environment was exhausted first. -/
def ReqRes.toRust : ReqRes → Option (Except ClientErr (Option Settings))
  | .ack s => some (.ok (some s))
  | .nak => some (.ok none)
  | .timeoutExhausted => some (.ok none)
  | .fmtErr => some (.error .formatError)
  | .ioErr => some (.error .ioError)
  | .stuck => none

/-- Result of `Client::run`: a returned `Result`, a panic from an `unwrap`,
or exhaustion of the modelled environment. -/
inductive RunRes where
  | ret (r : Except ClientErr (Option Settings))
  | panicked
  | stuck
deriving DecidableEq

/-- `Client::run` (src/asynch/dhcp.rs lines 304-342).  With a stored lease:
when at least `lease_time_secs.unwrap_or(7200) / 3` seconds have elapsed
since acquisition, renew by `request(settings.server_ip.unwrap(), settings.ip)`
(the `unwrap` panics when `server_ip` is `None`); a renewed lease is stored
and the loop continues, a NAK or exhausted attempts clear the lease and
return `Ok(None)`, an error is propagated with the lease kept.  When the
lease is not yet due the client sleeps 60 seconds and re-checks.  With no
stored lease: discover, then `request(offer.server_ip.unwrap(), offer.ip)`;
an ACK stores the lease and returns `Ok(Some(settings))`, a NAK or timeout
restarts discovery, an error is propagated. -/
def runR (cfg : ClientCfg) :
    Nat → Option (Settings × Nat) → World →
      RunRes × Option (Settings × Nat) × World × List Op
  | 0, st, w => (.stuck, st, w, [])
  | Nat.succ f, st, w =>
    match st with
    | some (s, acq) =>
      if s.lease_time_secs.getD 7200 / 3 ≤ w.now - acq then
        match s.server_ip with
        | none => (.panicked, st, w, [])
        | some sip =>
          match requestR cfg sip s.ip w with
          | (.ack s2, w1, ops) =>
            let (r, st2, w2, ops2) := runR cfg f (some (s2, w1.now)) w1
            (r, st2, w2, ops ++ ops2)
          | (.nak, w1, ops) => (.ret (.ok none), none, w1, ops)
          | (.timeoutExhausted, w1, ops) => (.ret (.ok none), none, w1, ops)
          | (.fmtErr, w1, ops) => (.ret (.error .formatError), st, w1, ops)
          | (.ioErr, w1, ops) => (.ret (.error .ioError), st, w1, ops)
          | (.stuck, w1, ops) => (.stuck, st, w1, ops)
      else
        runR cfg f st ⟨w.events, w.xids, w.now + 60⟩
    | none =>
      match discoverR cfg (Nat.succ f) w with
      | (.ok offer, w1, ops) =>
        match offer.server_ip with
        | none => (.panicked, none, w1, ops)
        | some sip =>
          match requestR cfg sip offer.ip w1 with
          | (.ack s2, w2, ops2) =>
            (.ret (.ok (some s2)), some (s2, w2.now), w2, ops ++ ops2)
          | (.nak, w2, ops2) =>
            let (r, st2, w3, ops3) := runR cfg f none w2
            (r, st2, w3, ops ++ ops2 ++ ops3)
          | (.timeoutExhausted, w2, ops2) =>
            let (r, st2, w3, ops3) := runR cfg f none w2
            (r, st2, w3, ops ++ ops2 ++ ops3)
          | (.fmtErr, w2, ops2) => (.ret (.error .formatError), none, w2, ops ++ ops2)
          | (.ioErr, w2, ops2) => (.ret (.error .ioError), none, w2, ops ++ ops2)
          | (.stuck, w2, ops2) => (.stuck, none, w2, ops ++ ops2)
      | (.fmtErr, w1, ops) => (.ret (.error .formatError), none, w1, ops)
      | (.ioErr, w1, ops) => (.ret (.error .ioError), none, w1, ops)
      | (.stuck, w1, ops) => (.stuck, none, w1, ops)

/-- The environment of one `Client::release` call: whether `connect_from`
and the subsequent `send` succeed. -/
structure ReleaseEnv where
  connectOk : Bool
  sendOk : Bool
deriving DecidableEq

/-- Result of `Client::release`. -/
inductive RelRes where
  | ok
  | ioError
  | panicked
deriving DecidableEq

/-- `Client::release` (src/asynch/dhcp.rs lines 348-372): with a stored
lease, `connect_from` the configured socket to
`(settings.server_ip.unwrap(), self.socket.port())` (panics when
`server_ip` is `None`), send one Release for `settings.ip`, and do not wait
for a reply; an I/O failure is propagated by `?` before `self.settings`
is cleared.  On the success path, and always when no lease is stored,
`self.settings` becomes `None`. -/
def releaseR (cfg : ClientCfg) (st : Option (Settings × Nat)) (env : ReleaseEnv) :
    RelRes × Option (Settings × Nat) × List Op :=
  match st with
  | some (s, _) =>
    match s.server_ip with
    | none => (.panicked, st, [])
    | some sip =>
      if env.connectOk then
        let ops := [Op.connectFrom cfg.socket ⟨sip, cfg.socket.port⟩,
                    Op.send cfg.socket ⟨sip, cfg.socket.port⟩ (.release s.ip)]
        if env.sendOk then (.ok, none, ops)
        else (.ioError, st, ops)
      else (.ioError, st, [Op.connectFrom cfg.socket ⟨sip, cfg.socket.port⟩])
  | none => (.ok, none, [])

/-- Resolution of one `socket.receive_into` in the server loop. -/
inductive SrvEvent where
  | recvPkt (bytes : List Nat) (lcl : SockV4) (remote : SockV4)
  | recvFail
deriving DecidableEq

/-- Result of the server loop, which only terminates on an error (or on
exhaustion of the modelled environment). -/
inductive SrvRes where
  | ioError
  | fmtError
  | stuck
deriving DecidableEq

/-- The body of `Server::run`'s loop (src/asynch/dhcp.rs lines 578-607):
receive one datagram (an I/O failure is propagated), decode it (a decode
failure is returned through `?` as a Format error), hand it to
`handle_request`, and when a reply is produced send it from the local
address the request arrived on to 255.255.255.255:`remote.port()` when the
reply's broadcast hint is set and to `remote` otherwise.  `handler` stands
for `self.server.handle_request`, whose decision logic lives in the dhcp
protocol core. -/
def serverLoop (handler : Packet → Option Packet) :
    List SrvEvent → SrvRes × List Op
  | [] => (.stuck, [])
  | .recvFail :: _ => (.ioError, [])
  | .recvPkt bytes lcl remote :: rest =>
    match Packet.decode bytes with
    | .error _ => (.fmtError, [])
    | .ok req =>
      match handler req with
      | some reply =>
        let dst := if reply.broadcast then SockV4.mk broadcastIp remote.port
                   else remote
        let (r, ops) := serverLoop handler rest
        (r, Op.sendPkt lcl dst reply :: ops)
      | none => serverLoop handler rest

/-- `Server::run` (src/asynch/dhcp.rs lines 571-608): bind one socket to the
configured address, then run the receive loop. -/
def serverRunR (handler : Packet → Option Packet) (sockCfg : SockV4)
    (events : List SrvEvent) : SrvRes × List Op :=
  let (r, ops) := serverLoop handler events
  (r, Op.bindMultiple sockCfg :: ops)

/-! Concrete wire-level inputs used by the witnesses below. -/

/-- Big-endian bytes of a 32-bit value. -/
def be32bytes (n : Nat) : List Nat :=
  [n / 16777216 % 256, n / 65536 % 256, n / 256 % 256, n % 256]

/-- A sample client mac, 02:00:00:00:00:01. -/
def macA : List Nat := [2, 0, 0, 0, 0, 1]

/-- 192.168.1.1. -/
def serverIpW : Nat := 3232235777

/-- 192.168.1.10. -/
def yiaddrW : Nat := 3232235786

/-- A BootReply frame for `macA`: MessageType `mt`, transaction id `xid`,
`yiaddr`, followed by further raw option bytes and End. -/
def mkReply (mt : Nat) (xid : Nat) (yiaddr : Nat) (opts : List Nat) : List Nat :=
  [2, 1, 6, 0] ++ be32bytes xid ++ [0, 0, 0, 0] ++
    be32bytes 0 ++ be32bytes yiaddr ++ be32bytes 0 ++ be32bytes 0 ++
    (macA ++ List.replicate 10 0) ++ List.replicate 192 0 ++
    [99, 130, 83, 99] ++ [53, 1, mt] ++ opts ++ [255]

/-- ServerIdentifier + LeaseTime(3600) option bytes for `serverIpW`. -/
def leaseOptsW : List Nat :=
  [54, 4] ++ be32bytes serverIpW ++ [51, 4] ++ be32bytes 3600

/-- An OFFER for transaction 42. -/
def offerBytesW : List Nat := mkReply 2 42 yiaddrW leaseOptsW

/-- An ACK for transaction 43. -/
def ackBytesW : List Nat := mkReply 5 43 yiaddrW leaseOptsW

/-- A NAK for transaction 43. -/
def nakBytesW : List Nat := mkReply 6 43 0 []

/-- The `Settings` carried by `offerBytesW` and `ackBytesW`. -/
def settingsW : Settings :=
  ⟨yiaddrW, some serverIpW, some 3600, none, none, none, none⟩

/-- A 30-byte IPv4/UDP frame with a valid header checksum: 10.0.0.1:67 →
10.0.0.2:68, UDP length 10, payload 0xAA 0xBB. -/
def frameW : List Nat :=
  [69, 0, 0, 30, 0, 0, 0, 0, 64, 17, 102, 205,
   10, 0, 0, 1, 10, 0, 0, 2,
   0, 67, 0, 68, 0, 10, 0, 0, 170, 187]

/-- The decoded form of `offerBytesW`. -/
def pktW : Packet :=
  { op := 2, htype := 1, hlen := 6, hops := 0, xid := 42, secs := 0,
    broadcast := false, ciaddr := 0, yiaddr := yiaddrW, siaddr := 0,
    giaddr := 0, chaddr := macA ++ List.replicate 10 0,
    options := [.messageType 2, .serverId serverIpW, .leaseTime 3600] }

/-- A reply packet whose broadcast hint is set, for exercising the server's
routing decision. -/
def replyW : Packet := { pktW with broadcast := true }

/-- An OFFER for transaction 42 that carries no ServerIdentifier. -/
def offerNoSrvBytesW : List Nat :=
  mkReply 2 42 yiaddrW ([51, 4] ++ be32bytes 3600)

/-- The `Settings` carried by `offerNoSrvBytesW`: `server_ip` is `none`. -/
def settingsNoSrvW : Settings :=
  ⟨yiaddrW, none, some 3600, none, none, none, none⟩

/-- A client configuration with a 30-second timeout. -/
def cfg30 : ClientCfg := ⟨macA, ⟨unspecifiedIp, 68⟩, 30⟩

/-- Whether an observable operation is a datagram send. -/
def isSendOp : Op → Bool
  | .send _ _ _ => true
  | .sendPkt _ _ _ => true
  | _ => false

/-- Number of datagram sends among the observable operations. -/
def sendCount (ops : List Op) : Nat := (ops.filter isSendOp).length

/-- The operation log of one `Client::request` call is well-addressed for
server `sip` and requested address `ip`: every bind is to `<sip>:68`, every
send goes from 0.0.0.0:68 to `<sip>:67` and carries a Request for `ip`, and
at most three Requests are sent. -/
def requestOpsOk (sip ip : Nat) (ops : List Op) : Prop :=
  (∀ a, Op.bindMultiple a ∈ ops → a = ⟨sip, 68⟩) ∧
  (∀ l rem m, Op.send l rem m ∈ ops →
    l = ⟨unspecifiedIp, 68⟩ ∧ rem = ⟨sip, 67⟩ ∧ ∃ x, m = SentMsg.request x ip) ∧
  sendCount ops ≤ 3

/-- The operation log of one `Client::discover` call is well-addressed:
every operation is either a bind to 0.0.0.0:68 or a Discover sent from
0.0.0.0:68 to 255.255.255.255:67. -/
def discoverOpsOk (ops : List Op) : Prop :=
  ∀ op ∈ ops, op = Op.bindMultiple ⟨unspecifiedIp, 68⟩ ∨
    ∃ x, op = Op.send ⟨unspecifiedIp, 68⟩ ⟨broadcastIp, 67⟩ (.discover x)

/-! ## Claims -/

/-- C2 (code_bug): on the first frame that `ip_udp_decode` accepts, the raw
adapter's `receive_into` copies `buf[..payload.length]` — the first bytes of
the raw frame, i.e. the IPv4 header — into the caller's buffer instead of
the UDP payload.  At the concrete frame `frameW` the decoded payload is
`[170, 187]`, yet the bytes handed to the caller are `[69, 0]`.  The
overflow check itself does compare the payload length against the caller's
capacity. -/
theorem raw_receive_copies_header_not_payload :
    ipUdpDecode frameW none none =
      .ok (some (⟨167772161, 67⟩, ⟨167772162, 68⟩, [170, 187])) ∧
    framePayload frameW = [170, 187] ∧
    rawReceiveInto none none 100 [frameW] =
      some (.ok ([69, 0], ⟨167772161, 67⟩, ⟨167772162, 68⟩)) ∧
    ([69, 0] : List Nat) ≠ [170, 187] ∧
    rawReceiveInto none none 1 [frameW] = some (.error .bufferOverflow) := by
  refine ⟨by decide, by decide, by decide, by decide, by decide⟩

/-- C9 (code_bug): `Client::release` connects and sends the Release to
`(server_ip, self.socket.port())`; under the default configuration the
client socket port is 68, so the Release is addressed to the server's UDP
port 68, not 67 as the spec's wire contract states. -/
theorem release_addressed_to_client_port :
    releaseR (defaultCfg macA) (some (settingsW, 0)) ⟨true, true⟩ =
      (.ok, none,
        [Op.connectFrom ⟨unspecifiedIp, 68⟩ ⟨serverIpW, 68⟩,
         Op.send ⟨unspecifiedIp, 68⟩ ⟨serverIpW, 68⟩ (.release yiaddrW)]) ∧
    (defaultCfg macA).socket.port = 68 ∧ (68 : Nat) ≠ 67 := by
  refine ⟨by decide, by decide, by decide⟩

/-- C7 (confirmed): whenever the server loop receives a datagram that
decodes and for which `handle_request` produces a reply, the reply is sent
from the local address the request arrived on, to 255.255.255.255 at the
sender's remote port when the reply's broadcast hint is set, and to the
exact remote address otherwise. -/
theorem server_reply_routing :
    ∀ (handler : Packet → Option Packet) (bytes : List Nat) (lcl remote : SockV4)
      (rest : List SrvEvent) (req reply : Packet),
      Packet.decode bytes = .ok req →
      handler req = some reply →
      serverLoop handler (.recvPkt bytes lcl remote :: rest) =
        ((serverLoop handler rest).1,
          Op.sendPkt lcl
            (if reply.broadcast then ⟨broadcastIp, remote.port⟩ else remote)
            reply ::
          (serverLoop handler rest).2) := by
  intro handler bytes lcl remote rest req reply hdec hh
  simp only [serverLoop, hdec, hh]

/-- C7 witness: a concrete decoded request and a handler that replies with
the broadcast hint set. -/
theorem server_reply_routing_witness :
    Packet.decode offerBytesW = .ok pktW ∧
    serverLoop (fun _ => some replyW) [.recvPkt offerBytesW ⟨0, 67⟩ ⟨5, 68⟩] =
      ((serverLoop (fun _ => some replyW) []).1,
        Op.sendPkt ⟨0, 67⟩
          (if replyW.broadcast then ⟨broadcastIp, (⟨5, 68⟩ : SockV4).port⟩
           else ⟨5, 68⟩)
          replyW ::
        (serverLoop (fun _ => some replyW) []).2) :=
  ⟨by decide,
   server_reply_routing (fun _ => some replyW) offerBytesW ⟨0, 67⟩ ⟨5, 68⟩ []
     pktW replyW (by decide) rfl⟩

/-- C8 counterexample: `release()` does not leave the settings `None`
unconditionally — when `connect_from` fails with an I/O error, the `?`
operator returns before `self.settings = None` is reached, so the call
returns `Err` and the lease is still stored. -/
theorem release_io_error_keeps_settings :
    releaseR (defaultCfg macA) (some (settingsW, 0)) ⟨false, true⟩ =
      (.ioError, some (settingsW, 0),
        [Op.connectFrom ⟨unspecifiedIp, 68⟩ ⟨serverIpW, 68⟩]) ∧
    (some (settingsW, 0) : Option (Settings × Nat)) ≠ none := by
  refine ⟨by decide, by decide⟩

/-- C8 (corrected): every `release()` call that returns Ok leaves the
settings `None`; with no stored lease the call returns Ok, sends nothing and
does not panic; a second call right after an Ok call returns Ok with the
state still `None` and nothing sent; and with a stored lease whose server is
known and working I/O, exactly one Release for the leased ip is sent over a
connected socket to the server, with no receive afterwards. -/
theorem release_semantics :
    ∀ (cfg : ClientCfg) (st : Option (Settings × Nat)) (env : ReleaseEnv),
      (∀ st2 ops, releaseR cfg st env = (.ok, st2, ops) → st2 = none) ∧
      releaseR cfg none env = (.ok, none, []) ∧
      (∀ st2 ops env2, releaseR cfg st env = (.ok, st2, ops) →
        releaseR cfg st2 env2 = (.ok, none, [])) ∧
      (∀ s t sip, s.server_ip = some sip → env.connectOk = true →
        env.sendOk = true →
        releaseR cfg (some (s, t)) env =
          (.ok, none,
            [Op.connectFrom cfg.socket ⟨sip, cfg.socket.port⟩,
             Op.send cfg.socket ⟨sip, cfg.socket.port⟩ (.release s.ip)]) ∧
        sendCount (releaseR cfg (some (s, t)) env).2.2 = 1) := by
  intro cfg st env
  have hok : ∀ st2 ops, releaseR cfg st env = (.ok, st2, ops) → st2 = none := by
    intro st2 ops h
    match st, h with
    | none, h =>
      simp only [releaseR] at h
      exact (Prod.mk.injEq _ _ _ _).mp ((Prod.mk.injEq _ _ _ _).mp h).2 |>.1.symm
    | some (s, t), h =>
      simp only [releaseR] at h
      match hs : s.server_ip with
      | none => rw [hs] at h; exact absurd ((Prod.mk.injEq _ _ _ _).mp h).1 (by decide)
      | some sip =>
        rw [hs] at h
        by_cases hc : env.connectOk
        · simp only [hc, if_true] at h
          by_cases hsnd : env.sendOk
          · simp only [hsnd, if_true] at h
            exact ((Prod.mk.injEq _ _ _ _).mp ((Prod.mk.injEq _ _ _ _).mp h).2).1.symm
          · simp only [hsnd, if_false] at h
            exact absurd ((Prod.mk.injEq _ _ _ _).mp h).1 (by decide)
        · simp only [hc, if_false] at h
          exact absurd ((Prod.mk.injEq _ _ _ _).mp h).1 (by decide)
  refine ⟨hok, by simp [releaseR], ?_, ?_⟩
  · intro st2 ops env2 h
    have := hok st2 ops h
    subst this
    simp [releaseR]
  · intro s t sip hs hc hsnd
    constructor
    · simp only [releaseR, hs, hc, hsnd, if_true]
    · simp only [releaseR, hs, hc, hsnd, if_true]
      rfl

/-- C8 witness: the amended statement at a concrete lease, with working I/O
on the first call and a second call right after it. -/
theorem release_semantics_witness :
    releaseR (defaultCfg macA) (some (settingsW, 0)) ⟨true, true⟩ =
      (.ok, none,
        [Op.connectFrom ⟨unspecifiedIp, 68⟩ ⟨serverIpW, 68⟩,
         Op.send ⟨unspecifiedIp, 68⟩ ⟨serverIpW, 68⟩ (.release yiaddrW)]) ∧
    releaseR (defaultCfg macA) none ⟨true, true⟩ = (.ok, none, []) ∧
    releaseR (defaultCfg macA)
        (releaseR (defaultCfg macA) (some (settingsW, 0)) ⟨true, true⟩).2.1
        ⟨false, false⟩ = (.ok, none, []) :=
  ⟨by decide,
   (release_semantics (defaultCfg macA) (some (settingsW, 0)) ⟨true, true⟩).2.1,
   by
    have h := (release_semantics (defaultCfg macA) (some (settingsW, 0))
      ⟨true, true⟩).2.2.1 none
      [Op.connectFrom ⟨unspecifiedIp, 68⟩ ⟨serverIpW, 68⟩,
       Op.send ⟨unspecifiedIp, 68⟩ ⟨serverIpW, 68⟩ (.release yiaddrW)]
      ⟨false, false⟩ (by decide)
    have he : (releaseR (defaultCfg macA) (some (settingsW, 0)) ⟨true, true⟩).2.1
        = (none : Option (Settings × Nat)) := by decide
    rw [he]
    exact h⟩

/-- C10 (confirmed): the client insists on a ServerIdentifier: with a lease
whose `server_ip` is `None`, entering renewal in `run()` panics at
`settings.server_ip.unwrap()`, accepting an OFFER whose settings carry no
server panics at `offer.server_ip.unwrap()`, and `release()` panics at its
own `unwrap()` — none of these paths returns an error value. -/
theorem missing_server_ip_panics :
    ∀ (cfg : ClientCfg) (f : Nat) (s : Settings) (acq t : Nat) (w : World)
      (env : ReleaseEnv),
      s.server_ip = none →
      (s.lease_time_secs.getD 7200 / 3 ≤ w.now - acq →
        runR cfg (f + 1) (some (s, acq)) w = (.panicked, some (s, acq), w, [])) ∧
      (∀ w1 ops, discoverR cfg (f + 1) w = (.ok s, w1, ops) →
        runR cfg (f + 1) none w = (.panicked, none, w1, ops)) ∧
      releaseR cfg (some (s, t)) env = (.panicked, some (s, t), []) ∧
      (∀ r : Except ClientErr (Option Settings), RunRes.panicked ≠ .ret r) := by
  intro cfg f s acq t w env hs
  refine ⟨?_, ?_, ?_, ?_⟩
  · intro hdue
    simp only [runR, if_pos hdue, hs]
  · intro w1 ops hdisc
    simp only [runR, hdisc, hs]
  · simp only [releaseR, hs]
  · intro r h
    exact RunRes.noConfusion h

/-- C10 witness: a lease and an OFFER both lacking a ServerIdentifier. -/
theorem missing_server_ip_panics_witness :
    settingsNoSrvW.server_ip = none ∧
    discoverR (defaultCfg macA) 1 ⟨[.recv 1 offerNoSrvBytesW], [42], 2000⟩ =
      (.ok settingsNoSrvW, ⟨[], [], 2001⟩, discoverOps 42) ∧
    runR (defaultCfg macA) 1 (some (settingsNoSrvW, 0))
        ⟨[.recv 1 offerNoSrvBytesW], [42], 2000⟩ =
      (.panicked, some (settingsNoSrvW, 0), ⟨[.recv 1 offerNoSrvBytesW], [42], 2000⟩, []) ∧
    runR (defaultCfg macA) 1 none ⟨[.recv 1 offerNoSrvBytesW], [42], 2000⟩ =
      (.panicked, none, ⟨[], [], 2001⟩, discoverOps 42) ∧
    releaseR (defaultCfg macA) (some (settingsNoSrvW, 3)) ⟨true, true⟩ =
      (.panicked, some (settingsNoSrvW, 3), []) :=
  ⟨by decide, by decide,
   (missing_server_ip_panics (defaultCfg macA) 0 settingsNoSrvW 0 3
      ⟨[.recv 1 offerNoSrvBytesW], [42], 2000⟩ ⟨true, true⟩ (by decide)).1
      (by decide),
   (missing_server_ip_panics (defaultCfg macA) 0 settingsNoSrvW 0 3
      ⟨[.recv 1 offerNoSrvBytesW], [42], 2000⟩ ⟨true, true⟩ (by decide)).2.1
      ⟨[], [], 2001⟩ (discoverOps 42) (by decide),
   (missing_server_ip_panics (defaultCfg macA) 0 settingsNoSrvW 0 3
      ⟨[.recv 1 offerNoSrvBytesW], [42], 2000⟩ ⟨true, true⟩ (by decide)).2.2.1⟩

/-- The first attempt of the request loop always begins by binding
`<sip>:68` and sending the Request, whatever the environment yields. -/
theorem requestGo_ops_head (cfg : ClientCfg) (sip ip a : Nat) (w : World) :
    ∃ rest, (requestGo cfg sip ip (a + 1) w).2.2 =
      Op.bindMultiple ⟨sip, 68⟩ ::
      Op.send ⟨unspecifiedIp, 68⟩ ⟨sip, 67⟩ (.request (headOr w.xids) ip) :: rest := by
  rcases h : requestWait cfg (headOr w.xids) 0 w.now w.events with ⟨rw, n, evs⟩
  cases rw with
  | ack s => exact ⟨[], by simp only [requestGo, h, requestOps]⟩
  | nak => exact ⟨[], by simp only [requestGo, h, requestOps]⟩
  | ferr => exact ⟨[], by simp only [requestGo, h, requestOps]⟩
  | ioerr => exact ⟨[], by simp only [requestGo, h, requestOps]⟩
  | stuck => exact ⟨[], by simp only [requestGo, h, requestOps]⟩
  | timedOut =>
    rcases h2 : requestGo cfg sip ip a ⟨evs, w.xids.tail, n⟩ with ⟨r2, w2, ops2⟩
    exact ⟨ops2, by
      simp only [requestGo, h, h2, requestOps, List.cons_append, List.nil_append]⟩

/-- C6 (confirmed): in the Bound state, one `run()` iteration enters renewal
— issuing a Request for the current ip to the recorded server — exactly when
the elapsed time since acquisition has reached one third of the lease time
(7200 s standing in when `lease_time_secs` is absent); otherwise it sleeps
60 seconds and re-checks. -/
theorem bound_state_renewal :
    ∀ (cfg : ClientCfg) (f : Nat) (s : Settings) (acq sip : Nat) (w : World),
      s.server_ip = some sip →
      (s.lease_time_secs.getD 7200 / 3 ≤ w.now - acq →
        ∃ rest, (runR cfg (f + 1) (some (s, acq)) w).2.2.2 =
          Op.bindMultiple ⟨sip, 68⟩ ::
          Op.send ⟨unspecifiedIp, 68⟩ ⟨sip, 67⟩ (.request (headOr w.xids) s.ip) ::
          rest) ∧
      (w.now - acq < s.lease_time_secs.getD 7200 / 3 →
        runR cfg (f + 1) (some (s, acq)) w =
          runR cfg f (some (s, acq)) ⟨w.events, w.xids, w.now + 60⟩) := by
  intro cfg f s acq sip w hsip
  constructor
  · intro hdue
    obtain ⟨rest, hrest⟩ := requestGo_ops_head cfg sip s.ip 2 w
    rcases hreq : requestR cfg sip s.ip w with ⟨rr, w1, ops1⟩
    have hops1 : ops1 = Op.bindMultiple ⟨sip, 68⟩ ::
        Op.send ⟨unspecifiedIp, 68⟩ ⟨sip, 67⟩ (.request (headOr w.xids) s.ip) ::
        rest := by
      have : (requestGo cfg sip s.ip 3 w).2.2 = ops1 := by
        rw [show requestGo cfg sip s.ip 3 w = requestR cfg sip s.ip w from rfl, hreq]
      rw [← this, hrest]
    cases rr with
    | ack s2 =>
      rcases hrun : runR cfg f (some (s2, w1.now)) w1 with ⟨r2, st2, w2, ops2⟩
      refine ⟨rest ++ ops2, ?_⟩
      simp [runR, if_pos hdue, hsip, hreq, hrun, hops1]
    | nak => exact ⟨rest, by simp [runR, if_pos hdue, hsip, hreq, hops1]⟩
    | timeoutExhausted => exact ⟨rest, by simp [runR, if_pos hdue, hsip, hreq, hops1]⟩
    | fmtErr => exact ⟨rest, by simp [runR, if_pos hdue, hsip, hreq, hops1]⟩
    | ioErr => exact ⟨rest, by simp [runR, if_pos hdue, hsip, hreq, hops1]⟩
    | stuck => exact ⟨rest, by simp [runR, if_pos hdue, hsip, hreq, hops1]⟩
  · intro hnot
    simp only [runR, if_neg (Nat.not_le.mpr hnot)]

/-- C6 witness: a lease of 3600 s acquired at time 0 is renewed at time 5000
(due since 5000 is at least 1200 = 3600/3) and left alone at time 100, where
the client just advances the clock by 60 s. -/
theorem bound_state_renewal_witness :
    settingsW.server_ip = some serverIpW ∧
    settingsW.lease_time_secs.getD 7200 / 3 ≤ (5000 : Nat) - 0 ∧
    (∃ rest, (runR (defaultCfg macA) 1 (some (settingsW, 0)) ⟨[], [], 5000⟩).2.2.2 =
        Op.bindMultiple ⟨serverIpW, 68⟩ ::
        Op.send ⟨unspecifiedIp, 68⟩ ⟨serverIpW, 67⟩ (.request 0 yiaddrW) :: rest) ∧
    ((100 : Nat) - 0 < settingsW.lease_time_secs.getD 7200 / 3) ∧
    runR (defaultCfg macA) 1 (some (settingsW, 0)) ⟨[], [], 100⟩ =
      runR (defaultCfg macA) 0 (some (settingsW, 0)) ⟨[], [], 160⟩ :=
  ⟨by decide, by decide,
   (bound_state_renewal (defaultCfg macA) 0 settingsW 0 serverIpW ⟨[], [], 5000⟩
      (by decide)).1 (by decide),
   by decide,
   (bound_state_renewal (defaultCfg macA) 0 settingsW 0 serverIpW ⟨[], [], 100⟩
      (by decide)).2 (by decide)⟩

/-- C1 counterexample: a 3-byte datagram that fails BOOTP decoding makes the
client's discover loop, the client's request loop and the server loop return
a Format error immediately — a valid OFFER/ACK waiting right behind the bad
datagram is never reached, so the loops do not swallow the error and
continue. -/
theorem decode_error_surfaces_counterexample :
    discoverR (defaultCfg macA) 1
        ⟨[.recv 1 [0, 1, 2], .recv 1 offerBytesW], [42], 0⟩ =
      (.fmtErr, ⟨[.recv 1 offerBytesW], [], 1⟩, discoverOps 42) ∧
    DiscRes.fmtErr ≠ DiscRes.ok settingsW ∧
    requestR (defaultCfg macA) serverIpW yiaddrW
        ⟨[.recv 1 [0, 1, 2], .recv 1 ackBytesW], [43], 0⟩ =
      (.fmtErr, ⟨[.recv 1 ackBytesW], [], 1⟩, requestOps serverIpW 43 yiaddrW) ∧
    ReqRes.fmtErr ≠ ReqRes.ack settingsW ∧
    serverRunR (fun _ => none) ⟨unspecifiedIp, 67⟩
        [.recvPkt [0, 1, 2] ⟨unspecifiedIp, 67⟩ ⟨9, 68⟩,
         .recvPkt offerBytesW ⟨unspecifiedIp, 67⟩ ⟨9, 68⟩] =
      (.fmtError, [.bindMultiple ⟨unspecifiedIp, 67⟩]) := by
  refine ⟨by decide, by decide, by decide, by decide, by decide⟩

/-- C1 (corrected): a received datagram whose bytes fail to decode as a
BOOTP/DHCP packet makes the client's discover and request receive loops and
the server loop stop and surface a Format error to the caller (the decode
result is propagated with the `?` operator) rather than being skipped. -/
theorem decode_error_propagates :
    ∀ (cfg : ClientCfg) (xid elapsed now d : Nat) (bytes : List Nat)
      (rest : List SelEvent) (e : FmtErr) (handler : Packet → Option Packet)
      (lcl remote : SockV4) (srest : List SrvEvent),
      Packet.decode bytes = .error e →
      (elapsed < cfg.timeout →
        discoverWait cfg xid elapsed now (.recv d bytes :: rest) =
          (.ferr, now + d, rest)) ∧
      (elapsed < cfg.timeout →
        requestWait cfg xid elapsed now (.recv d bytes :: rest) =
          (.ferr, now + d, rest)) ∧
      serverLoop handler (.recvPkt bytes lcl remote :: srest) = (.fmtError, []) := by
  intro cfg xid elapsed now d bytes rest e handler lcl remote srest hdec
  refine ⟨?_, ?_, ?_⟩
  · intro hlt
    simp only [discoverWait, if_pos hlt, hdec]
  · intro hlt
    simp only [requestWait, if_pos hlt, hdec]
  · simp only [serverLoop, hdec]

/-- C1 witness for the amended claim, at a concrete undecodable datagram. -/
theorem decode_error_propagates_witness :
    Packet.decode [0, 1, 2] = .error .invalidFormat ∧
    (0 : Nat) < (defaultCfg macA).timeout ∧
    discoverWait (defaultCfg macA) 7 0 50 [.recv 1 [0, 1, 2]] = (.ferr, 51, []) ∧
    requestWait (defaultCfg macA) 7 0 50 [.recv 1 [0, 1, 2]] = (.ferr, 51, []) ∧
    serverLoop (fun _ => none) [.recvPkt [0, 1, 2] ⟨0, 67⟩ ⟨9, 68⟩] =
      (.fmtError, []) :=
  ⟨by decide, by decide,
   (decode_error_propagates (defaultCfg macA) 7 0 50 1 [0, 1, 2] []
      .invalidFormat (fun _ => none) ⟨0, 67⟩ ⟨9, 68⟩ [] (by decide)).1 (by decide),
   (decode_error_propagates (defaultCfg macA) 7 0 50 1 [0, 1, 2] []
      .invalidFormat (fun _ => none) ⟨0, 67⟩ ⟨9, 68⟩ [] (by decide)).2.1 (by decide),
   (decode_error_propagates (defaultCfg macA) 7 0 50 1 [0, 1, 2] []
      .invalidFormat (fun _ => none) ⟨0, 67⟩ ⟨9, 68⟩ [] (by decide)).2.2⟩

/-- C4 counterexample: with a configured timeout of 30 s, a single request
attempt (exactly one bind and one Request sent) still accepts an ACK that
arrives 12 s after the Request — more than the 10 s per-attempt wait that
the claim states. -/
theorem request_attempt_waits_beyond_ten_seconds :
    requestR cfg30 serverIpW yiaddrW ⟨[.timer, .recv 2 ackBytesW], [43], 0⟩ =
      (.ack settingsW, ⟨[], [], 12⟩, requestOps serverIpW 43 yiaddrW) ∧
    sendCount (requestOps serverIpW 43 yiaddrW) = 1 ∧
    (10 : Nat) < 12 := by
  refine ⟨by decide, by decide, by decide⟩

/-- Sends appended: the count distributes over list append. -/
theorem sendCount_append (xs ys : List Op) :
    sendCount (xs ++ ys) = sendCount xs + sendCount ys := by
  simp [sendCount, List.filter_append]

/-- Every operation of the request attempt loop is a bind to `<sip>:68` or a
Request for `ip` sent from 0.0.0.0:68 to `<sip>:67`, and at most one Request
is sent per attempt. -/
theorem requestGo_ops_sound (cfg : ClientCfg) (sip ip : Nat) :
    ∀ (a : Nat) (w : World),
      (∀ op ∈ (requestGo cfg sip ip a w).2.2,
        op = Op.bindMultiple ⟨sip, 68⟩ ∨
        ∃ x, op = Op.send ⟨unspecifiedIp, 68⟩ ⟨sip, 67⟩ (.request x ip)) ∧
      sendCount (requestGo cfg sip ip a w).2.2 ≤ a := by
  intro a
  induction a with
  | zero => intro w; exact ⟨by intro op hop; simp [requestGo] at hop, by simp [requestGo, sendCount]⟩
  | succ a ih =>
    intro w
    rcases h : requestWait cfg (headOr w.xids) 0 w.now w.events with ⟨rw, n, evs⟩
    have hops0 : ∀ op ∈ requestOps sip (headOr w.xids) ip,
        op = Op.bindMultiple ⟨sip, 68⟩ ∨
        ∃ x, op = Op.send ⟨unspecifiedIp, 68⟩ ⟨sip, 67⟩ (.request x ip) := by
      intro op hop
      simp only [requestOps, List.mem_cons, List.not_mem_nil, or_false] at hop
      rcases hop with h1 | h1
      · exact Or.inl h1
      · exact Or.inr ⟨headOr w.xids, h1⟩
    have hcnt0 : sendCount (requestOps sip (headOr w.xids) ip) = 1 := by
      simp [requestOps, sendCount, isSendOp]
    cases rw with
    | ack s =>
      refine ⟨?_, ?_⟩
      · simp only [requestGo, h]; exact hops0
      · simp only [requestGo, h]; omega
    | nak =>
      refine ⟨?_, ?_⟩
      · simp only [requestGo, h]; exact hops0
      · simp only [requestGo, h]; omega
    | ferr =>
      refine ⟨?_, ?_⟩
      · simp only [requestGo, h]; exact hops0
      · simp only [requestGo, h]; omega
    | ioerr =>
      refine ⟨?_, ?_⟩
      · simp only [requestGo, h]; exact hops0
      · simp only [requestGo, h]; omega
    | stuck =>
      refine ⟨?_, ?_⟩
      · simp only [requestGo, h]; exact hops0
      · simp only [requestGo, h]; omega
    | timedOut =>
      rcases h2 : requestGo cfg sip ip a ⟨evs, w.xids.tail, n⟩ with ⟨r2, w2x, ops2⟩
      obtain ⟨ihmem, ihcnt⟩ := ih ⟨evs, w.xids.tail, n⟩
      rw [h2] at ihmem ihcnt
      refine ⟨?_, ?_⟩
      · simp only [requestGo, h, h2]
        intro op hop
        rcases List.mem_append.mp hop with h1 | h1
        · exact hops0 op h1
        · exact ihmem op h1
      · simp only [requestGo, h, h2]
        rw [sendCount_append, hcnt0]
        exact (Nat.add_le_add_left ihcnt 1).trans (Nat.le_of_eq (Nat.add_comm 1 a))

/-- C4 (corrected): each request attempt binds a socket to `<server_ip>:68`
and sends the Request from 0.0.0.0:68 to `<server_ip>:67`; the reply wait of
an attempt lasts up to the configured timeout (default 10 s), not a fixed
10 s; at most 3 attempts (hence at most 3 Requests) are made; and the
exhausted-attempts exit maps to `Ok(None)`. -/
theorem request_behavior :
    ∀ (cfg : ClientCfg) (sip ip : Nat) (w : World) (r : ReqRes) (w2 : World)
      (ops : List Op),
      requestR cfg sip ip w = (r, w2, ops) →
      requestOpsOk sip ip ops ∧
      (r = .timeoutExhausted → ReqRes.toRust r = some (.ok none)) ∧
      (∀ xid elapsed now evs, cfg.timeout ≤ elapsed →
        requestWait cfg xid elapsed now evs = (.timedOut, now, evs)) ∧
      (defaultCfg cfg.mac).timeout = 10 := by
  intro cfg sip ip w r w2 ops h
  obtain ⟨hmem, hcnt⟩ := requestGo_ops_sound cfg sip ip 3 w
  have hops : (requestGo cfg sip ip 3 w).2.2 = ops := by
    rw [show requestGo cfg sip ip 3 w = requestR cfg sip ip w from rfl, h]
  rw [hops] at hmem hcnt
  refine ⟨⟨?_, ?_, hcnt⟩, ?_, ?_, rfl⟩
  · intro a ha
    rcases hmem _ ha with h1 | ⟨x, h1⟩
    · exact Op.bindMultiple.inj h1
    · cases h1
  · intro l rem m hm
    rcases hmem _ hm with h1 | ⟨x, h1⟩
    · cases h1
    · obtain ⟨hl, hrem, hmsg⟩ := Op.send.inj h1
      exact ⟨hl, hrem, x, hmsg⟩
  · intro hr
    subst hr
    rfl
  · intro xid elapsed now evs hle
    cases evs with
    | nil => simp only [requestWait, if_neg (Nat.not_lt.mpr hle)]
    | cons e rest => cases e <;> simp only [requestWait, if_neg (Nat.not_lt.mpr hle)]

/-- C4 witness for the amended claim: three silent attempts exhaust the
loop, producing exactly three well-addressed Requests and the
timeout-exhausted exit. -/
theorem request_behavior_witness :
    requestR (defaultCfg macA) serverIpW yiaddrW ⟨[.timer, .timer, .timer], [1, 2, 3], 0⟩ =
      (.timeoutExhausted, ⟨[], [], 30⟩,
        requestOps serverIpW 1 yiaddrW ++ requestOps serverIpW 2 yiaddrW ++
          requestOps serverIpW 3 yiaddrW) ∧
    (requestOpsOk serverIpW yiaddrW
      (requestOps serverIpW 1 yiaddrW ++ requestOps serverIpW 2 yiaddrW ++
        requestOps serverIpW 3 yiaddrW) ∧
     (ReqRes.timeoutExhausted = ReqRes.timeoutExhausted →
        ReqRes.toRust .timeoutExhausted = some (.ok none)) ∧
     (∀ xid elapsed now evs, (defaultCfg macA).timeout ≤ elapsed →
        requestWait (defaultCfg macA) xid elapsed now evs = (.timedOut, now, evs)) ∧
     (defaultCfg (defaultCfg macA).mac).timeout = 10) :=
  ⟨by decide,
   request_behavior (defaultCfg macA) serverIpW yiaddrW
     ⟨[.timer, .timer, .timer], [1, 2, 3], 0⟩ .timeoutExhausted ⟨[], [], 30⟩
     (requestOps serverIpW 1 yiaddrW ++ requestOps serverIpW 2 yiaddrW ++
       requestOps serverIpW 3 yiaddrW) (by decide)⟩

/-- Every operation of the discovery loop is a bind to 0.0.0.0:68 or a
Discover sent from 0.0.0.0:68 to 255.255.255.255:67. -/
theorem discoverR_ops_sound (cfg : ClientCfg) :
    ∀ (f : Nat) (w : World), discoverOpsOk (discoverR cfg f w).2.2 := by
  intro f
  induction f with
  | zero => intro w op hop; simp [discoverR] at hop
  | succ f ih =>
    intro w
    have hops0 : discoverOpsOk (discoverOps (headOr w.xids)) := by
      intro op hop
      simp only [discoverOps, List.mem_cons, List.not_mem_nil, or_false] at hop
      rcases hop with h1 | h1
      · exact Or.inl h1
      · exact Or.inr ⟨headOr w.xids, h1⟩
    rcases h : discoverWait cfg (headOr w.xids) 0 w.now w.events with ⟨dw, n, evs⟩
    cases dw with
    | offer s => simp only [discoverR, h]; exact hops0
    | ferr => simp only [discoverR, h]; exact hops0
    | ioerr => simp only [discoverR, h]; exact hops0
    | stuck => simp only [discoverR, h]; exact hops0
    | timedOut =>
      rcases h2 : discoverR cfg f ⟨evs, w.xids.tail, n + 3⟩ with ⟨r2, w2, ops2⟩
      have ihm := ih ⟨evs, w.xids.tail, n + 3⟩
      rw [h2] at ihm
      simp only [discoverR, h, h2]
      intro op hop
      rcases List.mem_append.mp hop with h1 | h1
      · exact hops0 op h1
      · exact ihm op h1

/-- C5 (confirmed): each discovery round binds a socket to 0.0.0.0:68 and
broadcasts a Discover from 0.0.0.0:68 to 255.255.255.255:67; the OFFER wait
lasts up to the configured timeout (default 10 s), re-issuing a receive with
a 3-second timer; the first decoded reply satisfying `is_offer` for the
pending xid wins and its `Settings` are returned, other replies are skipped;
and a timed-out round sleeps 3 s and retries with a fresh socket, xid and
Discover. -/
theorem discover_behavior :
    ∀ (cfg : ClientCfg) (f : Nat) (w : World) (r : DiscRes) (w2 : World)
      (ops : List Op),
      discoverR cfg f w = (r, w2, ops) →
      discoverOpsOk ops ∧
      (∀ xid elapsed now evs, cfg.timeout ≤ elapsed →
        discoverWait cfg xid elapsed now evs = (.timedOut, now, evs)) ∧
      (∀ xid elapsed now rest, elapsed < cfg.timeout →
        discoverWait cfg xid elapsed now (SelEvent.timer :: rest) =
          discoverWait cfg xid (elapsed + 3) (now + 3) rest) ∧
      (∀ xid elapsed now d bytes rest p, elapsed < cfg.timeout →
        Packet.decode bytes = .ok p → isOffer cfg.mac p xid = true →
        discoverWait cfg xid elapsed now (SelEvent.recv d bytes :: rest) =
          (.offer (settingsOf p), now + d, rest)) ∧
      (∀ xid elapsed now d bytes rest p, elapsed < cfg.timeout →
        Packet.decode bytes = .ok p → isOffer cfg.mac p xid = false →
        discoverWait cfg xid elapsed now (SelEvent.recv d bytes :: rest) =
          discoverWait cfg xid (elapsed + d) (now + d) rest) ∧
      (∀ g n evs, f = g + 1 →
        discoverWait cfg (headOr w.xids) 0 w.now w.events = (.timedOut, n, evs) →
        discoverR cfg f w =
          ((discoverR cfg g ⟨evs, w.xids.tail, n + 3⟩).1,
           (discoverR cfg g ⟨evs, w.xids.tail, n + 3⟩).2.1,
           discoverOps (headOr w.xids) ++
             (discoverR cfg g ⟨evs, w.xids.tail, n + 3⟩).2.2)) ∧
      (defaultCfg cfg.mac).timeout = 10 := by
  intro cfg f w r w2 ops h
  have hall := discoverR_ops_sound cfg f w
  rw [h] at hall
  refine ⟨hall, ?_, ?_, ?_, ?_, ?_, rfl⟩
  · intro xid elapsed now evs hle
    cases evs with
    | nil => simp only [discoverWait, if_neg (Nat.not_lt.mpr hle)]
    | cons e rest => cases e <;> simp only [discoverWait, if_neg (Nat.not_lt.mpr hle)]
  · intro xid elapsed now rest hlt
    simp only [discoverWait, if_pos hlt]
  · intro xid elapsed now d bytes rest p hlt hdec hoff
    simp only [discoverWait, if_pos hlt, hdec, hoff, if_true]
  · intro xid elapsed now d bytes rest p hlt hdec hoff
    simp only [discoverWait, if_pos hlt, hdec, hoff, Bool.false_eq_true, if_false]
  · intro g n evs hf hwait
    subst hf
    rcases h2 : discoverR cfg g ⟨evs, w.xids.tail, n + 3⟩ with ⟨r2, w3, ops2⟩
    simp only [discoverR, hwait, h2]

/-- C5 witness: a first round that times out after four 3-second timer
expiries, a 3-second sleep, and a second round whose first reply is a
matching OFFER. -/
theorem discover_behavior_witness :
    discoverR (defaultCfg macA) 2
        ⟨[.timer, .timer, .timer, .timer, .recv 1 offerBytesW], [41, 42], 0⟩ =
      (.ok settingsW, ⟨[], [], 16⟩, discoverOps 41 ++ discoverOps 42) ∧
    (discoverOpsOk (discoverOps 41 ++ discoverOps 42) ∧
     (∀ xid elapsed now evs, (defaultCfg macA).timeout ≤ elapsed →
        discoverWait (defaultCfg macA) xid elapsed now evs = (.timedOut, now, evs)) ∧
     (∀ xid elapsed now rest, elapsed < (defaultCfg macA).timeout →
        discoverWait (defaultCfg macA) xid elapsed now (SelEvent.timer :: rest) =
          discoverWait (defaultCfg macA) xid (elapsed + 3) (now + 3) rest) ∧
     (∀ xid elapsed now d bytes rest p, elapsed < (defaultCfg macA).timeout →
        Packet.decode bytes = .ok p → isOffer (defaultCfg macA).mac p xid = true →
        discoverWait (defaultCfg macA) xid elapsed now (SelEvent.recv d bytes :: rest) =
          (.offer (settingsOf p), now + d, rest)) ∧
     (∀ xid elapsed now d bytes rest p, elapsed < (defaultCfg macA).timeout →
        Packet.decode bytes = .ok p → isOffer (defaultCfg macA).mac p xid = false →
        discoverWait (defaultCfg macA) xid elapsed now (SelEvent.recv d bytes :: rest) =
          discoverWait (defaultCfg macA) xid (elapsed + d) (now + d) rest) ∧
     (∀ g n evs, (2 : Nat) = g + 1 →
        discoverWait (defaultCfg macA)
            (headOr ([41, 42] : List Nat)) 0 0
            [.timer, .timer, .timer, .timer, .recv 1 offerBytesW] =
          (.timedOut, n, evs) →
        discoverR (defaultCfg macA) 2
            ⟨[.timer, .timer, .timer, .timer, .recv 1 offerBytesW], [41, 42], 0⟩ =
          ((discoverR (defaultCfg macA) g ⟨evs, [42], n + 3⟩).1,
           (discoverR (defaultCfg macA) g ⟨evs, [42], n + 3⟩).2.1,
           discoverOps (headOr ([41, 42] : List Nat)) ++
             (discoverR (defaultCfg macA) g ⟨evs, [42], n + 3⟩).2.2)) ∧
     (defaultCfg (defaultCfg macA).mac).timeout = 10) :=
  ⟨by decide,
   discover_behavior (defaultCfg macA) 2
     ⟨[.timer, .timer, .timer, .timer, .recv 1 offerBytesW], [41, 42], 0⟩
     (.ok settingsW) ⟨[], [], 16⟩ (discoverOps 41 ++ discoverOps 42) (by decide)⟩

/-- C3 (confirmed): whenever `run()` returns a value, `Ok(Some(settings))`
occurs exactly when a new lease was obtained — the client entered unbound,
some `request` call was answered with an ACK, and the returned settings are
stored with the acquisition time; `Ok(None)` occurs exactly when an existing
lease was lost — the client entered bound, the renewal `request` ended in
NAK or in timeout after all attempts, and the stored settings are cleared;
and the NAK and timeout-exhausted exits of `request` map to `Ok(None)`,
never to an error. -/
theorem run_lease_semantics (cfg : ClientCfg) :
    ∀ (fuel : Nat) (st st2 : Option (Settings × Nat)) (w w2 : World)
      (r : Except ClientErr (Option Settings)) (ops : List Op),
      runR cfg fuel st w = (.ret r, st2, w2, ops) →
      (∀ s, r = .ok (some s) →
        st = none ∧ st2 = some (s, w2.now) ∧
        ∃ sip ip w3 w4 ops1, requestR cfg sip ip w3 = (.ack s, w4, ops1)) ∧
      (r = .ok none →
        st ≠ none ∧ st2 = none ∧
        ∃ sip ip w3 w4 ops1 rr,
          (rr = ReqRes.nak ∨ rr = ReqRes.timeoutExhausted) ∧
          requestR cfg sip ip w3 = (rr, w4, ops1)) ∧
      (st = none → (∃ p, st2 = some p) → ∃ s, r = .ok (some s)) ∧
      (st ≠ none → st2 = none → r = .ok none) ∧
      ReqRes.toRust .nak = some (.ok none) ∧
      ReqRes.toRust .timeoutExhausted = some (.ok none) := by
  intro fuel
  induction fuel with
  | zero =>
    intro st st2 w w2 r ops h
    simp [runR] at h
  | succ f ih =>
    intro st st2 w w2 r ops h
    cases st with
    | some pair =>
      rcases pair with ⟨s, acq⟩
      simp only [runR] at h
      by_cases hdue : s.lease_time_secs.getD 7200 / 3 ≤ w.now - acq
      case neg =>
        rw [if_neg hdue] at h
        obtain ⟨c1, c2, c3, c4, c5, c6⟩ := ih _ _ _ _ _ _ h
        exact ⟨c1, c2, c3, c4, c5, c6⟩
      case pos =>
        rw [if_pos hdue] at h
        rcases hsip : s.server_ip with _ | sip
        · simp only [hsip] at h
          simp at h
        · simp only [hsip] at h
          rcases hreq : requestR cfg sip s.ip w with ⟨rr, w1, ops1⟩
          simp only [hreq] at h
          cases rr with
          | ack s2 =>
            rcases hrun : runR cfg f (some (s2, w1.now)) w1 with ⟨rr2, st3, w3, ops2⟩
            simp only [hrun, Prod.mk.injEq] at h
            obtain ⟨h1, h2, h3, h4⟩ := h
            have hrun2 : runR cfg f (some (s2, w1.now)) w1 = (.ret r, st2, w2, ops2) := by
              rw [hrun, h1, h2, h3]
            obtain ⟨c1, c2, c3, c4, _, _⟩ := ih _ _ _ _ _ _ hrun2
            refine ⟨?_, ?_, ?_, ?_, rfl, rfl⟩
            · intro s' hr
              exact absurd (c1 s' hr).1 (by simp)
            · intro hr
              obtain ⟨_, hst2, hex⟩ := c2 hr
              exact ⟨by simp, hst2, hex⟩
            · intro hst
              exact absurd hst (by simp)
            · intro _ hst2
              exact c4 (by simp) hst2
          | nak =>
            simp only [Prod.mk.injEq, RunRes.ret.injEq] at h
            obtain ⟨h1, h2, h3, h4⟩ := h
            subst h1
            refine ⟨?_, ?_, ?_, ?_, rfl, rfl⟩
            · intro s' hr
              exact absurd (Except.ok.inj hr) (by simp)
            · intro _
              exact ⟨by simp, h2.symm, sip, s.ip, w, w1, ops1, .nak, Or.inl rfl, hreq⟩
            · intro hst
              exact absurd hst (by simp)
            · intro _ _
              rfl
          | timeoutExhausted =>
            simp only [Prod.mk.injEq, RunRes.ret.injEq] at h
            obtain ⟨h1, h2, h3, h4⟩ := h
            subst h1
            refine ⟨?_, ?_, ?_, ?_, rfl, rfl⟩
            · intro s' hr
              exact absurd (Except.ok.inj hr) (by simp)
            · intro _
              exact ⟨by simp, h2.symm, sip, s.ip, w, w1, ops1, .timeoutExhausted,
                Or.inr rfl, hreq⟩
            · intro hst
              exact absurd hst (by simp)
            · intro _ _
              rfl
          | fmtErr =>
            simp only [Prod.mk.injEq, RunRes.ret.injEq] at h
            obtain ⟨h1, h2, h3, h4⟩ := h
            subst h1
            refine ⟨?_, ?_, ?_, ?_, rfl, rfl⟩
            · intro s' hr
              exact Except.noConfusion hr
            · intro hr
              exact Except.noConfusion hr
            · intro hst
              exact absurd hst (by simp)
            · intro _ hst2
              rw [← h2] at hst2
              exact Option.noConfusion hst2
          | ioErr =>
            simp only [Prod.mk.injEq, RunRes.ret.injEq] at h
            obtain ⟨h1, h2, h3, h4⟩ := h
            subst h1
            refine ⟨?_, ?_, ?_, ?_, rfl, rfl⟩
            · intro s' hr
              exact Except.noConfusion hr
            · intro hr
              exact Except.noConfusion hr
            · intro hst
              exact absurd hst (by simp)
            · intro _ hst2
              rw [← h2] at hst2
              exact Option.noConfusion hst2
          | stuck =>
            simp at h
    | none =>
      simp only [runR] at h
      rcases hdisc : discoverR cfg (f + 1) w with ⟨dr, w1, ops1⟩
      simp only [hdisc] at h
      cases dr with
      | ok offer =>
        rcases hsip : offer.server_ip with _ | sip
        · simp only [hsip] at h
          simp at h
        · simp only [hsip] at h
          rcases hreq : requestR cfg sip offer.ip w1 with ⟨rr, w1x, ops2⟩
          simp only [hreq] at h
          cases rr with
          | ack s2 =>
            simp only [Prod.mk.injEq, RunRes.ret.injEq] at h
            obtain ⟨h1, h2, h3, h4⟩ := h
            subst h1
            subst h3
            refine ⟨?_, ?_, ?_, ?_, rfl, rfl⟩
            · intro s' hr
              obtain rfl : s2 = s' := Option.some.inj (Except.ok.inj hr)
              exact ⟨rfl, h2.symm, sip, offer.ip, w1, w1x, ops2, hreq⟩
            · intro hr
              exact absurd (Except.ok.inj hr) (by simp)
            · intro _ _
              exact ⟨s2, rfl⟩
            · intro hne _
              exact absurd rfl hne
          | nak =>
            rcases hrun : runR cfg f none w1x with ⟨rr2, st3, w3, ops3⟩
            simp only [hrun, Prod.mk.injEq] at h
            obtain ⟨h1, h2, h3, h4⟩ := h
            have hrun2 : runR cfg f none w1x = (.ret r, st2, w2, ops3) := by
              rw [hrun, h1, h2, h3]
            obtain ⟨c1, c2, c3, c4, _, _⟩ := ih _ _ _ _ _ _ hrun2
            refine ⟨?_, ?_, ?_, ?_, rfl, rfl⟩
            · intro s' hr
              obtain ⟨_, hst2, hex⟩ := c1 s' hr
              exact ⟨rfl, hst2, hex⟩
            · intro hr
              exact absurd rfl (c2 hr).1
            · intro _ hp
              exact c3 rfl hp
            · intro hne _
              exact absurd rfl hne
          | timeoutExhausted =>
            rcases hrun : runR cfg f none w1x with ⟨rr2, st3, w3, ops3⟩
            simp only [hrun, Prod.mk.injEq] at h
            obtain ⟨h1, h2, h3, h4⟩ := h
            have hrun2 : runR cfg f none w1x = (.ret r, st2, w2, ops3) := by
              rw [hrun, h1, h2, h3]
            obtain ⟨c1, c2, c3, c4, _, _⟩ := ih _ _ _ _ _ _ hrun2
            refine ⟨?_, ?_, ?_, ?_, rfl, rfl⟩
            · intro s' hr
              obtain ⟨_, hst2, hex⟩ := c1 s' hr
              exact ⟨rfl, hst2, hex⟩
            · intro hr
              exact absurd rfl (c2 hr).1
            · intro _ hp
              exact c3 rfl hp
            · intro hne _
              exact absurd rfl hne
          | fmtErr =>
            simp only [Prod.mk.injEq, RunRes.ret.injEq] at h
            obtain ⟨h1, h2, h3, h4⟩ := h
            subst h1
            refine ⟨?_, ?_, ?_, ?_, rfl, rfl⟩
            · intro s' hr
              exact Except.noConfusion hr
            · intro hr
              exact Except.noConfusion hr
            · intro _ hp
              obtain ⟨p, hp⟩ := hp
              rw [← h2] at hp
              exact Option.noConfusion hp
            · intro hne _
              exact absurd rfl hne
          | ioErr =>
            simp only [Prod.mk.injEq, RunRes.ret.injEq] at h
            obtain ⟨h1, h2, h3, h4⟩ := h
            subst h1
            refine ⟨?_, ?_, ?_, ?_, rfl, rfl⟩
            · intro s' hr
              exact Except.noConfusion hr
            · intro hr
              exact Except.noConfusion hr
            · intro _ hp
              obtain ⟨p, hp⟩ := hp
              rw [← h2] at hp
              exact Option.noConfusion hp
            · intro hne _
              exact absurd rfl hne
          | stuck =>
            simp at h
      | fmtErr =>
        simp only [Prod.mk.injEq, RunRes.ret.injEq] at h
        obtain ⟨h1, h2, h3, h4⟩ := h
        subst h1
        refine ⟨?_, ?_, ?_, ?_, rfl, rfl⟩
        · intro s' hr
          exact Except.noConfusion hr
        · intro hr
          exact Except.noConfusion hr
        · intro _ hp
          obtain ⟨p, hp⟩ := hp
          rw [← h2] at hp
          exact Option.noConfusion hp
        · intro hne _
          exact absurd rfl hne
      | ioErr =>
        simp only [Prod.mk.injEq, RunRes.ret.injEq] at h
        obtain ⟨h1, h2, h3, h4⟩ := h
        subst h1
        refine ⟨?_, ?_, ?_, ?_, rfl, rfl⟩
        · intro s' hr
          exact Except.noConfusion hr
        · intro hr
          exact Except.noConfusion hr
        · intro _ hp
          obtain ⟨p, hp⟩ := hp
          rw [← h2] at hp
          exact Option.noConfusion hp
        · intro hne _
          exact absurd rfl hne
      | stuck =>
        simp at h

/-- C3 witness: a happy-path run — an unbound client receives an OFFER for
xid 42 and an ACK for xid 43, `run()` returns `Ok(Some(settings))`, and the
characterization holds at this input. -/
theorem run_lease_semantics_witness :
    runR (defaultCfg macA) 1 none
        ⟨[.recv 1 offerBytesW, .recv 1 ackBytesW], [42, 43], 0⟩ =
      (.ret (.ok (some settingsW)), some (settingsW, 2), ⟨[], [], 2⟩,
        discoverOps 42 ++ requestOps serverIpW 43 yiaddrW) ∧
    ((∀ s, (Except.ok (some settingsW) : Except ClientErr (Option Settings)) =
          .ok (some s) →
        (none : Option (Settings × Nat)) = none ∧
        (some (settingsW, 2) : Option (Settings × Nat)) =
          some (s, (⟨[], [], 2⟩ : World).now) ∧
        ∃ sip ip w3 w4 ops1,
          requestR (defaultCfg macA) sip ip w3 = (.ack s, w4, ops1)) ∧
     ((Except.ok (some settingsW) : Except ClientErr (Option Settings)) =
          .ok none →
        (none : Option (Settings × Nat)) ≠ none ∧
        (some (settingsW, 2) : Option (Settings × Nat)) = none ∧
        ∃ sip ip w3 w4 ops1 rr,
          (rr = ReqRes.nak ∨ rr = ReqRes.timeoutExhausted) ∧
          requestR (defaultCfg macA) sip ip w3 = (rr, w4, ops1)) ∧
     ((none : Option (Settings × Nat)) = none →
        (∃ p, (some (settingsW, 2) : Option (Settings × Nat)) = some p) →
        ∃ s, (Except.ok (some settingsW) : Except ClientErr (Option Settings)) =
          .ok (some s)) ∧
     ((none : Option (Settings × Nat)) ≠ none →
        (some (settingsW, 2) : Option (Settings × Nat)) = none →
        (Except.ok (some settingsW) : Except ClientErr (Option Settings)) =
          .ok none) ∧
     ReqRes.toRust .nak = some (.ok none) ∧
     ReqRes.toRust .timeoutExhausted = some (.ok none)) :=
  ⟨by decide,
   run_lease_semantics (defaultCfg macA) 1 none (some (settingsW, 2))
     ⟨[.recv 1 offerBytesW, .recv 1 ackBytesW], [42, 43], 0⟩ ⟨[], [], 2⟩
     (.ok (some settingsW)) (discoverOps 42 ++ requestOps serverIpW 43 yiaddrW)
     (by decide)⟩

end EdgeNet
